import Mathlib

/-!
Verification of the dnd-agent repository (Go): a turn-based D&D dungeon-master
agent.  The development shallowly embeds the program's pure decision logic:

* the dice tool, in both its structured form (`rollDice` in `src/main.go`)
  and its dice-string form (`rollDice` in `src/unnamed/part_000`);
* the `ask_player` interaction gate (`askPlayer` in `src/main.go`);
* the monster/spell knowledge lookups and their defensive formatting helpers
  (`lookupMonster`, `lookupSpell`, `formatAC`, `formatSpeed`, `formatSchool`);
* the turn-orchestration loop (`gameLoop` in `src/main.go`).

Modelling choices, uniform across the file:

* Go strings are modelled as `List Char`.  `strings.TrimSpace` and
  `strings.ToLower` operate rune by rune in Go, so the char-level model is
  exact for them; the characters the code indexes by byte position (`'+'`,
  `'-'`, `'d'`, digits) are single-byte UTF-8 code points that only occur on
  rune boundaries, so Go's byte indexing coincides with character indexing
  at every position the code examines.
* Go machine integers are modelled as `Int`; `strconv.Atoi`'s 64-bit range
  check is modelled explicitly (`atoiChars`).
* A Go runtime panic (slice out of range, failed type assertion) is modelled
  as an explicit `crash` value, since the enclosing program has no recover.
* The external entropy source `crypto/rand.Int(reader, big.NewInt n)` is an
  external collaborator; it is modelled as a function `ent : Nat → Nat → Nat`
  giving the draw of roll index `i` with upper bound `n`, together with the
  collaborator's contract `0 < n → ent i n < n`.
-/

namespace DndAgent

/-- `unicode.IsSpace`, i.e. the Unicode White_Space property that Go's
`strings.TrimSpace` trims rune by rune: U+0009..U+000D, U+0020, U+0085,
U+00A0, U+1680, U+2000..U+200A, U+2028, U+2029, U+202F, U+205F, U+3000. -/
def isSpaceChar (c : Char) : Bool :=
  (9 ≤ c.toNat && c.toNat ≤ 13) || c.toNat == 32 || c.toNat == 133 ||
  c.toNat == 160 || c.toNat == 5760 ||
  (8192 ≤ c.toNat && c.toNat ≤ 8202) || c.toNat == 8232 || c.toNat == 8233 ||
  c.toNat == 8239 || c.toNat == 8287 || c.toNat == 12288

/-- `strings.TrimSpace`: drop whitespace from both ends. -/
def trimChars (cs : List Char) : List Char :=
  ((cs.dropWhile isSpaceChar).reverse.dropWhile isSpaceChar).reverse

/-- Numeric value of a digit string (most significant digit first). -/
def digitsVal (ds : List Char) : Nat :=
  ds.foldl (fun a c => a * 10 + (c.toNat - 48)) 0

/-- Largest Go `int` (64-bit) value; `strconv.Atoi` errors beyond it. -/
def int64Max : Nat := 9223372036854775807

/-- `strconv.Atoi`: an optional single sign followed by one or more digits,
nothing else; values outside the 64-bit range are an error (`none`). -/
def atoiChars (cs : List Char) : Option Int :=
  let signed : Bool × List Char :=
    match cs with
    | '+' :: r => (false, r)
    | '-' :: r => (true, r)
    | r => (false, r)
  let neg := signed.1
  let rest := signed.2
  if rest.isEmpty then none
  else if rest.all Char.isDigit then
    let v := digitsVal rest
    if neg then
      if v ≤ int64Max + 1 then some (-(v : Int)) else none
    else
      if v ≤ int64Max then some (v : Int) else none
  else none

/-- `fmt.Sscanf(s, "%d", &x)` with the error discarded and `x` initially `0`:
skip leading spaces, read an optional sign and a maximal digit run; on any
scan failure (no digits, 64-bit overflow) the variable keeps its zero value. -/
def sscanfIntD (cs : List Char) : Int :=
  let cs := cs.dropWhile isSpaceChar
  let signed : Bool × List Char :=
    match cs with
    | '+' :: r => (false, r)
    | '-' :: r => (true, r)
    | r => (false, r)
  let digs := signed.2.takeWhile Char.isDigit
  if digs.isEmpty then 0
  else
    let v := digitsVal digs
    if signed.1 then
      if v ≤ int64Max + 1 then -(v : Int) else 0
    else
      if v ≤ int64Max then (v : Int) else 0

/-! ### Dice engine (`roll_dice` tool)

`src/unnamed/part_000` lines 244-291 parse a dice string such as `2d6+3`;
`src/main.go` lines 353-372 take a structured `(count, sides, modifier)`
query.  Both share the same rolling loop. -/

/-- The modifier-splitting block of `rollDice` (`src/unnamed/part_000`
lines 250-259): search `nota[1:]` for the first `'+'` or `'-'`; if found at
byte `idx` (in `nota`), the sign is `nota[idx]`, the modifier is scanned from
`nota[idx+1:]`, and the main part is `nota[:idx]`.  The caller must ensure
`nota` is nonempty — Go's `nota[1:]` panics otherwise. -/
def splitModifier (nota : List Char) : List Char × Int :=
  match (nota.drop 1).findIdx? (fun c => c == '+' || c == '-') with
  | none => (nota, 0)
  | some i =>
    let idx := i + 1
    let modSign : Int := if nota.getD idx ' ' == '-' then -1 else 1
    (nota.take idx, modSign * sscanfIntD (nota.drop (idx + 1)))

/-- `strings.SplitN(s, "d", 2)`: two parts when `'d'` occurs (split at the
first occurrence), otherwise a single part — which the caller rejects. -/
def splitOnceD (cs : List Char) : Option (List Char × List Char) :=
  match cs.findIdx? (fun c => c == 'd') with
  | none => none
  | some i => some (cs.take i, cs.drop (i + 1))

/-- Outcome of parsing a dice string: a Go runtime panic, the
invalid-notation rejection, or a `(count, sides, modifier)` triple. -/
inductive ParseOut where
  | crash
  | invalid
  | ok (count sides modifier : Int)
  deriving DecidableEq

/-- The count validation of `rollDice` (`src/unnamed/part_000` lines
266-269): a count segment that fails `Atoi` or is non-positive becomes 1. -/
def countOf (cPart : List Char) : Int :=
  match atoiChars cPart with
  | some c => if c ≤ 0 then 1 else c
  | none => 1

/-- The count/sides validation of `rollDice` (`src/unnamed/part_000` lines
266-273), applied after the split at `'d'`: a sides value that fails `Atoi`
or is non-positive rejects the whole call. -/
def evalParts (cPart sPart : List Char) (modifier : Int) : ParseOut :=
  match atoiChars sPart with
  | some sv => if sv ≤ 0 then .invalid else .ok (countOf cPart) sv modifier
  | none => .invalid

/-- Full parse of a dice string (`src/unnamed/part_000` lines 245-273):
trim, split off the modifier, lowercase, split at `'d'`, validate.
The empty (or all-whitespace) input reaches `nota[1:]` with `len(nota) = 0`,
a slice-bounds panic in Go, modelled as `crash`. -/
def parseDice (s : String) : ParseOut :=
  let nota := trimChars s.data
  if nota.isEmpty then .crash
  else
    let pm := splitModifier nota
    match splitOnceD (pm.1.map Char.toLower) with
    | none => .invalid
    | some ps => evalParts ps.1 ps.2 pm.2

/-- The shared rolling loop: `count` independent draws, each
`rand.Int(rand.Reader, big.NewInt(sides))` plus one.  The individual
`rolls[i] = int(n.Int64()) + 1` never wraps: the draw is below `sides`,
which is at most `int64Max`. -/
def rollLoop (ent : Nat → Nat → Nat) (count sides : Nat) : List Nat :=
  (List.range count).map (fun i => ent i sides + 1)

/-- Reduction of an unbounded integer to Go's wrapping 64-bit `int`.  The
accumulation `total += rolls[i]; ...; total += modifier` wraps at every
step; since wrapping addition is addition modulo `2^64` on representatives,
the final `total` is the wrap of the unbounded sum. -/
def wrap64 (n : Int) : Int :=
  (n + 9223372036854775808) % 18446744073709551616 - 9223372036854775808

/-- Structured input of the `roll_dice` tool in `src/main.go` (lines
347-351): JSON fields `count`, `sides`, `modifier`, all Go `int`s, zero when
omitted. -/
structure DiceQuery where
  count : Int
  sides : Int
  modifier : Int
  deriving DecidableEq

/-- Result of a dice evaluation: the rolled outcomes with their total
(`Rolling NdM[±k]: [..] = total`), the invalid-notation text response, or a
Go runtime panic. -/
inductive DiceResponse where
  | rolled (rolls : List Nat) (total : Int)
  | invalid (msg : String)
  | crash
  deriving DecidableEq

/-- Whether a dice response is the invalid-notation rejection. -/
def DiceResponse.isInvalid : DiceResponse → Bool
  | .invalid _ => true
  | _ => false

/-- `rollDice` of `src/main.go` (lines 353-372): clamp count and sides to at
least 1, roll, and report `sum of rolls + modifier` accumulated in Go's
wrapping 64-bit `int`.  This form never rejects its input. -/
def rollDice (ent : Nat → Nat → Nat) (q : DiceQuery) : DiceResponse :=
  let count := max q.count 1
  let sides := max q.sides 1
  let rolls := rollLoop ent count.toNat sides.toNat
  .rolled rolls (wrap64 ((rolls.sum : Int) + q.modifier))

/-- `rollDice` of `src/unnamed/part_000` (lines 244-291), the dice-string
form: parse, then roll with the parsed count/sides and add the modifier,
the total accumulating in Go's wrapping 64-bit `int`.  The invalid response
carries Go's `Invalid dice notation: %s` text with the trimmed input. -/
def rollDiceN (ent : Nat → Nat → Nat) (s : String) : DiceResponse :=
  match parseDice s with
  | .crash => .crash
  | .invalid => .invalid ("Invalid dice notation: " ++ String.mk (trimChars s.data))
  | .ok c sd m =>
    let rolls := rollLoop ent c.toNat sd.toNat
    .rolled rolls (wrap64 ((rolls.sum : Int) + m))

/-- Entropy source that always draws 0 (every die shows 1). -/
def entZero : Nat → Nat → Nat := fun _ _ => 0

/-- Entropy source whose draw at roll index `i` is `3 + i`: the first two
d6 draws are 3 and 4, i.e. outcomes 4 and 5. -/
def ent45 : Nat → Nat → Nat := fun i _ => 3 + i

/-- The input-validation loop of `askPlayer`.  Returns the tool's text
response: either `The player chose: <label>` or the stream-closed
`The player has left the game.` response.  An invalid line (non-integer or
out of `[1, len options]`) re-prompts, i.e. recurses on the remaining
lines. -/
def askPlayer (options : List String) : List String → String
  | [] => "The player has left the game."
  | line :: rest =>
    let text := trimChars line.data
    match atoiChars text with
    | none => askPlayer options rest
    | some choice =>
      if choice < 1 then askPlayer options rest
      else if (options.length : Int) < choice then askPlayer options rest
      else "The player chose: " ++ (options.getD (choice.toNat - 1) "")

/-! ### Knowledge lookup adapter (`lookup_monster` / `lookup_spell`)

`src/main.go` lines 244-341 and helpers 378-404.  The decoded JSON record
(`map[string]any`) is modelled as an association list of `GoVal`s; an absent
key — or a record that failed to unmarshal, leaving the `nil` map — reads as
`GoVal.null`, exactly like indexing a Go map with a missing key. -/

/-- A Go `any` holding decoded JSON: `nil`, `bool`, `float64`, `string`,
`[]any` or `map[string]any`.  JSON numbers decode to `float64` in Go; the
program only renders them, and every rendered number in the claims is
integral, so they are modelled as `Int`. -/
inductive GoVal where
  | null
  | boolean (b : Bool)
  | num (n : Int)
  | str (s : String)
  | arr (xs : List GoVal)
  | obj (fields : List (String × GoVal))

/-- A decoded `map[string]any` record. -/
def Rec := List (String × GoVal)

/-- Go map indexing `m[k]`: the value when present, the zero value `nil`
otherwise (also when the whole map is `nil`). -/
def getF (fs : List (String × GoVal)) (k : String) : GoVal :=
  match fs.find? (fun kv => kv.1 == k) with
  | some kv => kv.2
  | none => .null

mutual

/-- `fmt` `%v` of a decoded-JSON `any`: `<nil>` for `nil`, the bare value
for scalars, `[a b]` for slices, `map[k:v ...]` for maps.  (Go additionally
sorts map keys when printing and prints non-integral floats with a decimal
point; no claim inspects those renderings.) -/
def render : GoVal → String
  | .null => "<nil>"
  | .boolean b => if b then "true" else "false"
  | .num n => toString n
  | .str s => s
  | .arr xs => "[" ++ renderList xs ++ "]"
  | .obj fs => "map[" ++ renderFields fs ++ "]"

/-- Space-separated `%v` renderings of a slice's elements. -/
def renderList : List GoVal → String
  | [] => ""
  | [x] => render x
  | x :: xs => render x ++ " " ++ renderList xs

/-- Space-separated `k:v` renderings of a map's entries. -/
def renderFields : List (String × GoVal) → String
  | [] => ""
  | [kv] => kv.1 ++ ":" ++ render kv.2
  | kv :: fs => kv.1 ++ ":" ++ render kv.2 ++ " " ++ renderFields fs

end

/-- `fmt` `%s` of an `any`: the string itself for strings; for anything else
Go prints a `%!s(...)`-style marker (never a panic).  Only the string and
`nil` cases are rendered exactly; no claim inspects the others. -/
def renderS : GoVal → String
  | .str s => s
  | .null => "%!s(<nil>)"
  | v => render v

/-- `formatAC` (`src/main.go` lines 378-385): armor class is a list whose
first element is an object carrying `value`; any other shape degrades to
`?`. -/
def formatAC : GoVal → String
  | .arr (x :: _) =>
    match x with
    | .obj fs => render (getF fs "value")
    | _ => "?"
  | _ => "?"

/-- `formatSpeed` (`src/main.go` lines 387-397): a map rendered as
comma-separated `mode speed` pairs; any other shape degrades to `?`.
(Go iterates the map in unspecified order; the model uses entry order.) -/
def formatSpeed : GoVal → String
  | .obj fs => String.intercalate ", " (fs.map (fun kv => kv.1 ++ " " ++ render kv.2))
  | _ => "?"

/-- `formatSchool` (`src/main.go` lines 399-404): the `name` field of the
school object; any other shape degrades to `?`. -/
def formatSchool : GoVal → String
  | .obj fs => render (getF fs "name")
  | _ => "?"

/-- The action/special-ability rendering loop of `lookupMonster`
(`src/main.go` lines 275-289): each element is force-cast with
`a.(map[string]any)` — a non-object element is a Go runtime panic, modelled
as `none`. -/
def renderEntries : List GoVal → Option String
  | [] => some ""
  | .obj fs :: rest =>
    (renderEntries rest).map
      (fun t => "\n- " ++ renderS (getF fs "name") ++ ": " ++ renderS (getF fs "desc") ++ t)
  | _ :: _ => none

/-- One optional section of the monster summary (`src/main.go` lines
275-289): emitted only when the field holds a slice — exactly the checked
type assertion `m["actions"].([]any)` — and propagating the panic of the
entry loop. -/
def addSection (acc : Option String) (header : String) (v : GoVal) : Option String :=
  match acc with
  | none => none
  | some s =>
    match v with
    | .arr as => (renderEntries as).map (fun t => s ++ header ++ t)
    | _ => some s

/-- The header line of the monster summary (`src/main.go` lines 265-273):
a fixed set of fields rendered with `%v`/`%s`, plus the `formatAC` and
`formatSpeed` helpers. -/
def monsterBase (m : Rec) : String :=
  renderS (getF m "name") ++ " (" ++ renderS (getF m "size") ++ " " ++
    renderS (getF m "type") ++ ", CR " ++ render (getF m "challenge_rating") ++
    ") | AC " ++ formatAC (getF m "armor_class") ++ " | HP " ++
    render (getF m "hit_points") ++ " (" ++ render (getF m "hit_dice") ++ ")\n" ++
    "STR " ++ render (getF m "strength") ++ " DEX " ++ render (getF m "dexterity") ++
    " CON " ++ render (getF m "constitution") ++ " INT " ++
    render (getF m "intelligence") ++ " WIS " ++ render (getF m "wisdom") ++
    " CHA " ++ render (getF m "charisma") ++ " | Speed: " ++
    formatSpeed (getF m "speed")

/-- The monster summary of `lookupMonster` (`src/main.go` lines 265-289):
header plus optional `Actions:` and `Special Abilities:` sections; `none` is
the runtime panic raised by a non-object element of either list. -/
def monsterSummary (m : Rec) : Option String :=
  addSection (addSection (some (monsterBase m)) "\nActions:" (getF m "actions"))
    "\nSpecial Abilities:" (getF m "special_abilities")

/-- The damage-by-slot loop of `lookupSpell` (`src/main.go` lines 331-338).
(Go iterates the map in unspecified order; the model uses entry order.) -/
def renderSlots : List (String × GoVal) → String
  | [] => ""
  | (lvl, dice) :: rest => " L" ++ lvl ++ "=" ++ render dice ++ renderSlots rest

/-- The spell summary of `lookupSpell` (`src/main.go` lines 319-338).  Every
extraction is guarded by a checked type assertion, so this path never
panics. -/
def spellSummary (s : Rec) : String :=
  let desc :=
    match getF s "desc" with
    | .arr (d :: _) => render d
    | _ => ""
  let base :=
    renderS (getF s "name") ++ " (Level " ++ render (getF s "level") ++ " " ++
    formatSchool (getF s "school") ++ ") | " ++ renderS (getF s "casting_time") ++
    " | Range: " ++ renderS (getF s "range") ++ " | Duration: " ++
    renderS (getF s "duration") ++ "\nComponents: " ++ render (getF s "components") ++
    "\n" ++ desc
  match getF s "damage" with
  | .obj dfs =>
    match getF dfs "damage_at_slot_level" with
    | .obj slots => base ++ "\nDamage by slot:" ++ renderSlots slots
    | _ => base
  | _ => base

/-- Whether a decoded value is an object (`map[string]any`), i.e. whether
the force-cast `a.(map[string]any)` would succeed. -/
def isObjB : GoVal → Bool
  | .obj _ => true
  | _ => false

/-- The exact condition under which the action/special-ability loops avoid
the runtime panic: if the field is a slice, every element is an object
(a non-slice field skips the section harmlessly). -/
def entriesOk : GoVal → Bool
  | .arr xs => xs.all isObjB
  | _ => true

/-- The armor-class shapes `formatAC` extracts a value from: a nonempty
slice whose first element is an object.  Everything else degrades to `?`. -/
def acWellShaped : GoVal → Bool
  | .arr (x :: _) => isObjB x
  | _ => false

/-- Outcome of the single `http.Get` a lookup performs: a transport error,
or a response with a status code and (decoded) body. -/
inductive FetchOutcome where
  | netErr
  | ok (status : Nat) (record : Rec)

/-- What a lookup handler produces.  Both Go handlers return a `nil` error
on every path, so the only outcomes are an ordinary text tool response or a
runtime panic. -/
inductive HandlerResult where
  | resp (text : String)
  | crash

/-- `lookupMonster` (`src/main.go` lines 248-292): transport error and
non-200 status are ordinary text responses; on 200 the summary is built
(and may panic on a malformed record). -/
def lookupMonster (fetch : FetchOutcome) (name : String) : HandlerResult :=
  match fetch with
  | .netErr => .resp "Failed to reach D&D API"
  | .ok status record =>
    if status ≠ 200 then .resp ("Monster '" ++ name ++ "' not found")
    else
      match monsterSummary record with
      | some s => .resp s
      | none => .crash

/-- `lookupSpell` (`src/main.go` lines 302-341): transport error and
non-200 status are ordinary text responses; the 200 path always succeeds. -/
def lookupSpell (fetch : FetchOutcome) (name : String) : HandlerResult :=
  match fetch with
  | .netErr => .resp "Failed to reach D&D API"
  | .ok status record =>
    if status ≠ 200 then .resp ("Spell '" ++ name ++ "' not found")
    else .resp (spellSummary record)

/-- Key derivation shared by both lookups (`src/main.go` lines 249, 303):
spaces to hyphens, then lowercase. -/
def slugify (name : String) : String :=
  String.mk (name.data.map (fun c => Char.toLower (if c = ' ' then '-' else c)))

/-! ### Turn-orchestration loop

`gameLoop` in `src/main.go` lines 89-127.  The agent's streamed generation
is an external collaborator; a run of the loop is driven by a script of turn
outcomes, one per iteration.  A failed generation carries whether the base
(signal) context was cancelled at the moment the error is inspected
(`sigCtx.Err() != nil`). -/

/-- One Step of a Turn: the Messages it produced (`result.Steps[i].Messages`).
The message payload type is irrelevant to the loop and left abstract. -/
structure Step (Msg : Type) where
  messages : List Msg
  deriving DecidableEq

/-- Outcome of one streamed generation. -/
inductive TurnOutcome (Msg : Type) where
  | success (steps : List (Step Msg))
  | failure (errMsg : String) (baseCancelled : Bool)

/-- How a finite script of turns leaves the loop: still running with the
accumulated history and next prompt (the real loop is infinite on success),
gracefully ended by operator cancellation, or fatally ended with a
propagated error. -/
inductive LoopResult (Msg : Type) where
  | exhausted (history : List Msg) (prompt : String)
  | graceful
  | fatal (errMsg : String)
  deriving DecidableEq

/-- `gameLoop` (`src/main.go` lines 97-126): on a failed generation, return
`nil` (graceful) when the base context is cancelled and otherwise propagate
`stream: <err>`; on success append every Step's Messages to the history in
order and continue with the prompt `Continue.`. -/
def gameLoop {Msg : Type} :
    List (TurnOutcome Msg) → List Msg → String → LoopResult Msg
  | [], history, prompt => .exhausted history prompt
  | .failure e cancelled :: _, _, _ =>
    if cancelled then .graceful else .fatal ("stream: " ++ e)
  | .success steps :: rest, history, _ =>
    gameLoop rest (history ++ (steps.map Step.messages).flatten) "Continue."

/-- The loop as started by `run`: empty history, initial prompt `Begin.`. -/
def runGame {Msg : Type} (turns : List (TurnOutcome Msg)) : LoopResult Msg :=
  gameLoop turns [] "Begin."

example : parseDice "2d6+3" = .ok 2 6 3 := by decide
example : parseDice "1d20-2" = .ok 1 20 (-2) := by decide
example : parseDice "d20" = .ok 1 20 0 := by decide
example : parseDice "" = .crash := by decide
example : parseDice "  " = .crash := by decide
example : trimChars "\u00A0".data = [] := by decide
example : parseDice "\u00A0" = .crash := by decide
example : parseDice "\u00A02d6+3\u00A0" = .ok 2 6 3 := by decide
example : parseDice "1d6+-9223372036854775808" = .ok 1 6 (-9223372036854775808) := by
  decide
example : parseDice "abc" = .invalid := by decide
example : parseDice "2d" = .invalid := by decide
example : parseDice "2d0" = .invalid := by decide
example : parseDice "-2d6" = .ok 1 6 0 := by decide
example : rollDiceN ent45 "2d6+3" = .rolled [4, 5] 12 := by decide
example : rollDice entZero ⟨1, 0, 0⟩ = .rolled [1] 1 := by decide
example : askPlayer ["a", "b", "c", "d", "e"] ["3"] = "The player chose: c" := rfl
example : askPlayer ["a", "b", "c", "d", "e"] ["abc", "9", "2"] = "The player chose: b" := rfl
example : askPlayer ["a", "b"] [] = "The player has left the game." := rfl
example :
    lookupMonster (.ok 200 [("actions", GoVal.arr [GoVal.str "oops"])]) "x" = .crash := rfl
example : lookupMonster (.ok 404 []) "Owl Bear" = .resp "Monster 'Owl Bear' not found" := rfl
example : formatAC .null = "?" := rfl

/-! ### Helper lemmas -/

/-- Number of rolled outcomes. -/
theorem rollLoop_length (ent : Nat → Nat → Nat) (count sides : Nat) :
    (rollLoop ent count sides).length = count := by
  simp [rollLoop]

/-- Each rolled outcome is a draw plus one. -/
theorem rollLoop_mem {ent : Nat → Nat → Nat} {count sides r : Nat}
    (h : r ∈ rollLoop ent count sides) : ∃ i, i < count ∧ r = ent i sides + 1 := by
  simp only [rollLoop, List.mem_map, List.mem_range] at h
  obtain ⟨i, hi, hr⟩ := h
  exact ⟨i, hi, hr.symm⟩

/-- The defaulted count is always at least 1. -/
theorem countOf_pos (cPart : List Char) : 1 ≤ countOf cPart := by
  unfold countOf
  split
  · split <;> omega
  · omega

/-- A successful parse has a positive count and positive sides, and keeps
the scanned modifier. -/
theorem evalParts_ok {cs ss : List Char} {m c sd m2 : Int}
    (h : evalParts cs ss m = .ok c sd m2) : 1 ≤ c ∧ 1 ≤ sd ∧ m2 = m := by
  unfold evalParts at h
  split at h
  · split at h
    · exact absurd h (by simp)
    · obtain ⟨h1, h2, h3⟩ := ParseOut.ok.inj h
      have hco := countOf_pos cs
      omega
  · exact absurd h (by simp)

/-- Validation never produces the panic marker. -/
theorem evalParts_ne_crash (cs ss : List Char) (m : Int) :
    evalParts cs ss m ≠ .crash := by
  unfold evalParts
  split
  · split <;> simp
  · simp

/-- A sides segment that fails `Atoi` rejects the call. -/
theorem evalParts_sides_none (cPart sPart : List Char) (m : Int)
    (hs : atoiChars sPart = none) : evalParts cPart sPart m = .invalid := by
  simp [evalParts, hs]

/-- A sides segment parsing as a non-positive value rejects the call. -/
theorem evalParts_sides_nonpos (cPart sPart : List Char) (m v : Int)
    (hs : atoiChars sPart = some v) (hv : v ≤ 0) :
    evalParts cPart sPart m = .invalid := by
  simp [evalParts, hs, if_pos hv]

/-- A count segment that fails `Atoi` defaults to one die. -/
theorem evalParts_count_fail_default (cPart sPart : List Char) (m v : Int)
    (hcn : atoiChars cPart = none) (hs : atoiChars sPart = some v)
    (hv : 0 < v) : evalParts cPart sPart m = .ok 1 v m := by
  simp only [evalParts, hs, countOf, hcn]
  rw [if_neg (by omega)]

/-- A count segment parsing as a non-positive value also defaults to one
die (Go line 267: `err != nil || count <= 0`). -/
theorem evalParts_count_nonpos_default (cPart sPart : List Char) (m v c0 : Int)
    (hc : atoiChars cPart = some c0) (hc0 : c0 ≤ 0)
    (hs : atoiChars sPart = some v) (hv : 0 < v) :
    evalParts cPart sPart m = .ok 1 v m := by
  simp only [evalParts, hs, countOf, hc]
  rw [if_neg (by omega), if_pos hc0]

/-- A successful parse of the dice string has positive count and sides. -/
theorem parseDice_ok {s : String} {c sd m : Int}
    (h : parseDice s = .ok c sd m) : 1 ≤ c ∧ 1 ≤ sd := by
  simp only [parseDice] at h
  split at h
  · exact absurd h (by simp)
  · split at h
    · exact absurd h (by simp)
    · obtain ⟨h1, h2, _⟩ := evalParts_ok h
      exact ⟨h1, h2⟩

/-- If `'d'` does not occur, the split fails (one part in Go). -/
theorem splitOnceD_eq_none {cs : List Char} (h : 'd' ∉ cs) :
    splitOnceD cs = none := by
  unfold splitOnceD
  have hf : cs.findIdx? (fun c => c == 'd') = none := by
    rw [List.findIdx?_eq_none_iff]
    intro x hx
    exact beq_eq_false_iff_ne.2 (fun hxd => h (hxd ▸ hx))
  rw [hf]

/-- If every element of a slice is an object, the entry-rendering loop of
`lookupMonster` completes without a panic. -/
theorem renderEntries_ok {xs : List GoVal} (h : xs.all isObjB = true) :
    ∃ t, renderEntries xs = some t := by
  induction xs with
  | nil => exact ⟨"", rfl⟩
  | cons x rest ih =>
    rw [List.all_cons, Bool.and_eq_true] at h
    obtain ⟨t, ht⟩ := ih h.2
    cases x with
    | obj fs =>
      exact ⟨"\n- " ++ renderS (getF fs "name") ++ ": " ++ renderS (getF fs "desc") ++ t,
        by simp [renderEntries, ht]⟩
    | null => exact absurd h.1 (by simp [isObjB])
    | boolean b => exact absurd h.1 (by simp [isObjB])
    | num n => exact absurd h.1 (by simp [isObjB])
    | str s => exact absurd h.1 (by simp [isObjB])
    | arr ys => exact absurd h.1 (by simp [isObjB])

/-- A section whose field passes the element check never panics. -/
theorem addSection_ok (s header : String) {v : GoVal} (hv : entriesOk v = true) :
    ∃ t, addSection (some s) header v = some t := by
  cases v with
  | arr as =>
    obtain ⟨t, ht⟩ := renderEntries_ok (by simpa [entriesOk] using hv)
    exact ⟨s ++ header ++ t, by simp [addSection, ht]⟩
  | null => exact ⟨s, rfl⟩
  | boolean b => exact ⟨s, rfl⟩
  | num n => exact ⟨s, rfl⟩
  | str s2 => exact ⟨s, rfl⟩
  | obj fs => exact ⟨s, rfl⟩

/-- When both list-shaped fields pass the element check, the monster
summary is produced. -/
theorem monsterSummary_ok {m : Rec}
    (ha : entriesOk (getF m "actions") = true)
    (hb : entriesOk (getF m "special_abilities") = true) :
    ∃ t, monsterSummary m = some t := by
  obtain ⟨t1, ht1⟩ := addSection_ok (monsterBase m) "\nActions:" ha
  unfold monsterSummary
  rw [ht1]
  exact addSection_ok t1 "\nSpecial Abilities:" hb

/-- A nonempty trimmed dice string never reaches the panic. -/
theorem parseDice_ne_crash {s : String} (h : trimChars s.data ≠ []) :
    parseDice s ≠ .crash := by
  have hne : (trimChars s.data).isEmpty = false := by
    cases hh : (trimChars s.data).isEmpty
    · rfl
    · exact absurd (List.isEmpty_iff.1 hh) h
  simp only [parseDice, hne, Bool.false_eq_true, if_false]
  split
  · simp
  · exact evalParts_ne_crash _ _ _

/-- A main part with no `'d'` is rejected as invalid (Go's `SplitN` yields a
single part). -/
theorem parseDice_invalid_no_d {s : String} (h : trimChars s.data ≠ [])
    (hd : 'd' ∉ (splitModifier (trimChars s.data)).1.map Char.toLower) :
    parseDice s = .invalid := by
  have hne : (trimChars s.data).isEmpty = false := by
    cases hh : (trimChars s.data).isEmpty
    · rfl
    · exact absurd (List.isEmpty_iff.1 hh) h
  have hsp := splitOnceD_eq_none hd
  simp [parseDice, hne, hsp]

/-- Running the loop over a script of purely successful turns appends every
Step's Messages, turn by turn, and leaves the continuation prompt. -/
theorem gameLoop_success_run {Msg : Type} (script : List (List (Step Msg))) :
    ∀ (history : List Msg) (prompt : String),
      gameLoop (script.map .success) history prompt =
        .exhausted
          (history ++ (script.map (fun steps => (steps.map Step.messages).flatten)).flatten)
          (if script.isEmpty then prompt else "Continue.") := by
  induction script with
  | nil => intro history prompt; simp [gameLoop]
  | cons steps rest ih =>
    intro history prompt
    simp only [List.map_cons, gameLoop]
    rw [ih]
    congr 1
    · simp [List.append_assoc]
    · cases rest <;> simp

/-! ### The claims -/

/-- C2 counterexample: in the structured form a non-positive sides value
does not fail with an invalid-notation response — the call succeeds,
treating sides as 1. -/
theorem rollDice_struct_sides_zero_not_invalid :
    rollDice entZero ⟨1, 0, 0⟩ = .rolled [1] 1 ∧
    (rollDice entZero ⟨1, 0, 0⟩).isInvalid = false :=
  ⟨by decide, by decide⟩

/-- C2 amended: in the dice-string form an omitted or invalid count —
whether `Atoi` fails or it parses non-positive — defaults to 1, and an
omitted, non-numeric or non-positive sides value fails with the
invalid-notation response; in the structured form the call never fails —
both an invalid count and a non-positive sides value are clamped to 1. -/
theorem dice_defaulting_policy (ent : Nat → Nat → Nat)
    (hent : ∀ i n, 0 < n → ent i n < n) :
    (∀ q : DiceQuery, (rollDice ent q).isInvalid = false) ∧
    (∀ q : DiceQuery, q.count ≤ 0 →
      ∃ rolls total, rollDice ent q = .rolled rolls total ∧ rolls.length = 1) ∧
    (∀ q : DiceQuery, q.sides ≤ 0 →
      ∃ rolls total, rollDice ent q = .rolled rolls total ∧ ∀ r ∈ rolls, r = 1) ∧
    (∀ (s : String) (c sd m : Int), parseDice s = .ok c sd m → 1 ≤ c ∧ 1 ≤ sd) ∧
    (∀ (cPart sPart : List Char) (m : Int), atoiChars sPart = none →
      evalParts cPart sPart m = .invalid) ∧
    (∀ (cPart sPart : List Char) (m v : Int), atoiChars sPart = some v → v ≤ 0 →
      evalParts cPart sPart m = .invalid) ∧
    (∀ (cPart sPart : List Char) (m v : Int), atoiChars cPart = none →
      atoiChars sPart = some v → 0 < v → evalParts cPart sPart m = .ok 1 v m) ∧
    (∀ (cPart sPart : List Char) (m v c0 : Int), atoiChars cPart = some c0 →
      c0 ≤ 0 → atoiChars sPart = some v → 0 < v →
      evalParts cPart sPart m = .ok 1 v m) := by
  refine ⟨fun q => rfl, ?_, ?_, fun s c sd m hp => parseDice_ok hp,
    evalParts_sides_none, evalParts_sides_nonpos, evalParts_count_fail_default,
    evalParts_count_nonpos_default⟩
  · intro q hq
    refine ⟨_, _, rfl, ?_⟩
    have h1 : max q.count 1 = 1 := max_eq_right (by omega)
    rw [h1]
    simpa using rollLoop_length ent _ _
  · intro q hq
    refine ⟨_, _, rfl, ?_⟩
    intro r hr
    have h1 : max q.sides 1 = 1 := max_eq_right (by omega)
    rw [h1] at hr
    obtain ⟨i, _, rfl⟩ := rollLoop_mem hr
    have := hent i ((1 : Int).toNat) (by decide)
    omega

/-- C2 witness: a zero count defaults to one die; the count segments `x`
(non-numeric) and `0` (non-positive) with sides segment `6` both parse as
one six-sided die. -/
theorem dice_defaulting_policy_w :
    (∃ rolls total, rollDice entZero ⟨0, 6, 5⟩ = .rolled rolls total ∧
      rolls.length = 1) ∧
    evalParts ['x'] ['6'] 0 = .ok 1 6 0 ∧
    evalParts ['0'] ['6'] 0 = .ok 1 6 0 := by
  have T := dice_defaulting_policy entZero (fun _ _ h => h)
  exact ⟨T.2.1 ⟨0, 6, 5⟩ (by decide),
    T.2.2.2.2.2.2.1 ['x'] ['6'] 0 6 (by decide) (by decide) (by decide),
    T.2.2.2.2.2.2.2 ['0'] ['6'] 0 6 0 (by decide) (by decide) (by decide)
      (by decide)⟩

/-- C3 counterexample: the empty dice string hits Go's `notation[1:]` slice
with length 0, a runtime panic — not an invalid-notation response. -/
theorem rollDiceN_empty_crash : rollDiceN entZero "" = .crash := by decide

/-- C3 amended: for every dice string that is nonempty after (Unicode)
trimming, evaluation never panics, and every malformed one — main part
lacking the `'d'` separator, or a sides segment that is non-numeric or
parses non-positive — returns the explicit invalid-notation response; the
empty (or all-whitespace) string, however, panics with a slice-bounds
violation. -/
theorem rollDiceN_nonempty_no_crash (ent : Nat → Nat → Nat) (s : String)
    (h : trimChars s.data ≠ []) :
    rollDiceN ent s ≠ .crash ∧
    ('d' ∉ (splitModifier (trimChars s.data)).1.map Char.toLower →
      rollDiceN ent s =
        .invalid ("Invalid dice notation: " ++ String.mk (trimChars s.data))) ∧
    (∀ cs ss : List Char,
      splitOnceD ((splitModifier (trimChars s.data)).1.map Char.toLower) =
        some (cs, ss) →
      (atoiChars ss = none ∨ ∃ v, atoiChars ss = some v ∧ v ≤ 0) →
      rollDiceN ent s =
        .invalid ("Invalid dice notation: " ++ String.mk (trimChars s.data))) := by
  have hne : (trimChars s.data).isEmpty = false := by
    cases hh : (trimChars s.data).isEmpty
    · rfl
    · exact absurd (List.isEmpty_iff.1 hh) h
  refine ⟨?_, ?_, ?_⟩
  · intro hcon
    unfold rollDiceN at hcon
    split at hcon
    · next hp => exact parseDice_ne_crash h hp
    · exact absurd hcon (by simp)
    · exact absurd hcon (by simp)
  · intro hd
    simp [rollDiceN, parseDice_invalid_no_d h hd]
  · intro cs ss hsp hbad
    have hp : parseDice s = evalParts cs ss (splitModifier (trimChars s.data)).2 := by
      simp [parseDice, hne, hsp]
    have hinv : evalParts cs ss (splitModifier (trimChars s.data)).2 = .invalid := by
      cases hbad with
      | inl h0 => exact evalParts_sides_none _ _ _ h0
      | inr h0 =>
        obtain ⟨v, hv, hvle⟩ := h0
        exact evalParts_sides_nonpos _ _ _ v hv hvle
    simp [rollDiceN, hp.trans hinv]

/-- C3 witness: the string `xyz` (no `'d'` separator) and the string `2dx`
(non-numeric sides) are both rejected with the invalid-notation response
and do not panic. -/
theorem rollDiceN_nonempty_no_crash_w :
    rollDiceN entZero "xyz" ≠ .crash ∧
    rollDiceN entZero "xyz" = .invalid "Invalid dice notation: xyz" ∧
    rollDiceN entZero "2dx" = .invalid "Invalid dice notation: 2dx" := by
  have T := rollDiceN_nonempty_no_crash entZero "xyz" (by decide)
  have T2 := rollDiceN_nonempty_no_crash entZero "2dx" (by decide)
  exact ⟨T.1, (T.2.1 (by decide)).trans (by decide),
    (T2.2.2 ['2'] ['x'] (by decide) (Or.inl (by decide))).trans (by decide)⟩

/-- C4: with a non-empty options list, a line parsing as an integer `c` in
`[1, len options]` returns the response naming option `c-1`; a line that
does not parse or is out of range re-prompts (consumes the line and
continues with the rest of the input); a closed stream returns the
player-left response. -/
theorem askPlayer_gate_behavior (options lines : List String) (line : String)
    (_hne : options ≠ []) :
    (∀ c : Int, atoiChars (trimChars line.data) = some c → 1 ≤ c →
      c ≤ (options.length : Int) →
      ∃ label, options[c.toNat - 1]? = some label ∧
        askPlayer options (line :: lines) = "The player chose: " ++ label) ∧
    ((atoiChars (trimChars line.data) = none ∨
      ∃ c : Int, atoiChars (trimChars line.data) = some c ∧
        (c < 1 ∨ (options.length : Int) < c)) →
      askPlayer options (line :: lines) = askPlayer options lines) ∧
    askPlayer options [] = "The player has left the game." := by
  refine ⟨?_, ?_, rfl⟩
  · intro c hc h1 h2
    have hlt : c.toNat - 1 < options.length := by omega
    refine ⟨options[c.toNat - 1], by simp [List.getElem?_eq_getElem hlt], ?_⟩
    simp only [askPlayer, hc]
    rw [if_neg (by omega), if_neg (by omega)]
    congr 1
    rw [List.getD_eq_getElem?_getD, List.getElem?_eq_getElem hlt]
    rfl
  · intro hbad
    cases hbad with
    | inl hnone => simp [askPlayer, hnone]
    | inr hsome =>
      obtain ⟨c, hc, hrange⟩ := hsome
      simp only [askPlayer, hc]
      cases hrange with
      | inl hlt => rw [if_pos hlt]
      | inr hgt => rw [if_neg (by omega), if_pos hgt]

/-- C4 witness: with five options, the line `3` selects the third label;
the line `abc` re-prompts; a closed stream yields the player-left
response. -/
theorem askPlayer_gate_behavior_w :
    (∃ label, (["a", "b", "c", "d", "e"] : List String)[(3 : Int).toNat - 1]? =
        some label ∧
      askPlayer ["a", "b", "c", "d", "e"] ["3"] = "The player chose: " ++ label) ∧
    askPlayer ["a", "b", "c", "d", "e"] ["abc"] =
      askPlayer ["a", "b", "c", "d", "e"] [] ∧
    askPlayer ["a", "b", "c", "d", "e"] [] = "The player has left the game." := by
  have T := askPlayer_gate_behavior ["a", "b", "c", "d", "e"] [] "3" (by decide)
  have T2 := askPlayer_gate_behavior ["a", "b", "c", "d", "e"] [] "abc" (by decide)
  exact ⟨T.1 3 (by decide) (by decide) (by decide),
    T2.2.1 (Or.inl (by decide)), T.2.2⟩

/-- C5: for both lookups, a network failure returns the unreachable text
response, a non-200 status returns a not-found text response containing the
original (non-slugified) name, and both are ordinary tool outputs (the Go
handlers return a nil error on every such path). -/
theorem lookup_failure_responses (name : String) :
    lookupMonster .netErr name = .resp "Failed to reach D&D API" ∧
    lookupSpell .netErr name = .resp "Failed to reach D&D API" ∧
    (∀ (status : Nat) (record : Rec), status ≠ 200 →
      lookupMonster (.ok status record) name =
        .resp ("Monster '" ++ name ++ "' not found") ∧
      ∃ pre post : List Char,
        ("Monster '" ++ name ++ "' not found").data = pre ++ name.data ++ post) ∧
    (∀ (status : Nat) (record : Rec), status ≠ 200 →
      lookupSpell (.ok status record) name =
        .resp ("Spell '" ++ name ++ "' not found") ∧
      ∃ pre post : List Char,
        ("Spell '" ++ name ++ "' not found").data = pre ++ name.data ++ post) := by
  refine ⟨rfl, rfl, ?_, ?_⟩
  · intro status record hs
    refine ⟨by simp [lookupMonster, hs], "Monster '".data, "' not found".data, ?_⟩
    obtain ⟨l⟩ := name
    simp
  · intro status record hs
    refine ⟨by simp [lookupSpell, hs], "Spell '".data, "' not found".data, ?_⟩
    obtain ⟨l⟩ := name
    simp

/-- C5 witness: a 404 monster lookup for `Owl Bear` and a 500 spell lookup
for `Misty Step`. -/
theorem lookup_failure_responses_w :
    lookupMonster (.ok 404 []) "Owl Bear" = .resp "Monster 'Owl Bear' not found" ∧
    lookupSpell (.ok 500 []) "Misty Step" = .resp "Spell 'Misty Step' not found" := by
  have T := lookup_failure_responses "Owl Bear"
  have T2 := lookup_failure_responses "Misty Step"
  exact ⟨(T.2.2.1 404 [] (by decide)).1, (T2.2.2.2 500 [] (by decide)).1⟩

/-- C6 counterexample: a successfully fetched record whose `actions` list
holds a non-object element makes the summary panic (Go's unchecked
`a.(map[string]any)` assertion), rather than rendering a placeholder. -/
theorem lookupMonster_nonobject_action_crash :
    lookupMonster (.ok 200 [("actions", GoVal.arr [GoVal.str "Multiattack"])])
      "owlbear" = .crash := rfl

/-- C6 amended: absent or mistyped fields render as explicit placeholders
(`?` for armor class, speed and school; `<nil>` for `%v`-rendered scalars)
and the summary succeeds for any record whose `actions` and
`special_abilities` lists — when present as lists — contain only objects;
a non-object element of either list, however, panics. -/
theorem lookup_placeholder_degradation :
    formatAC .null = "?" ∧
    (∀ v : GoVal, acWellShaped v = false → formatAC v = "?") ∧
    formatSpeed .null = "?" ∧
    (∀ v : GoVal, isObjB v = false → formatSpeed v = "?") ∧
    formatSchool .null = "?" ∧
    (∀ v : GoVal, isObjB v = false → formatSchool v = "?") ∧
    render .null = "<nil>" ∧
    (∀ (record : Rec) (name : String),
      entriesOk (getF record "actions") = true →
      entriesOk (getF record "special_abilities") = true →
      ∃ text, lookupMonster (.ok 200 record) name = .resp text) ∧
    (∀ (record : Rec) (name : String),
      ∃ text, lookupSpell (.ok 200 record) name = .resp text) := by
  refine ⟨rfl, ?_, rfl, ?_, rfl, ?_, rfl, ?_, ?_⟩
  · intro v hv
    cases v with
    | arr xs =>
      cases xs with
      | nil => rfl
      | cons x rest =>
        cases x with
        | obj fs => exact absurd hv (by simp [acWellShaped, isObjB])
        | null => rfl
        | boolean b => rfl
        | num n => rfl
        | str s => rfl
        | arr ys => rfl
    | null => rfl
    | boolean b => rfl
    | num n => rfl
    | str s => rfl
    | obj fs => rfl
  · intro v hv
    cases v with
    | obj fs => exact absurd hv (by simp [isObjB])
    | null => rfl
    | boolean b => rfl
    | num n => rfl
    | str s => rfl
    | arr ys => rfl
  · intro v hv
    cases v with
    | obj fs => exact absurd hv (by simp [isObjB])
    | null => rfl
    | boolean b => rfl
    | num n => rfl
    | str s => rfl
    | arr ys => rfl
  · intro record name ha hb
    obtain ⟨t, ht⟩ := monsterSummary_ok ha hb
    exact ⟨t, by simp [lookupMonster, ht]⟩
  · intro record name
    exact ⟨spellSummary record, by simp [lookupSpell]⟩

/-- C6 witness: the empty record (every field absent) renders a full
summary of placeholders without failing. -/
theorem lookup_placeholder_degradation_w :
    entriesOk (getF ([] : Rec) "actions") = true ∧
    ∃ text, lookupMonster (.ok 200 ([] : Rec)) "goblin" = .resp text :=
  ⟨by decide,
    lookup_placeholder_degradation.2.2.2.2.2.2.2.1 [] "goblin" (by decide)
      (by decide)⟩

/-- C7: a failed generation terminates the loop gracefully (no error) when
the base context is cancelled, and fatally — propagating `stream: <err>` —
when it is not (a Turn-timeout failure arrives with the base context still
alive, hence fatal). -/
theorem gameLoop_failure_policy {Msg : Type} (e : String)
    (rest : List (TurnOutcome Msg)) (history : List Msg) (prompt : String) :
    gameLoop (.failure e true :: rest) history prompt = .graceful ∧
    gameLoop (.failure e false :: rest) history prompt =
      .fatal ("stream: " ++ e) :=
  ⟨rfl, rfl⟩

/-- C8: over any script of successful turns, the loop appends every Step's
Messages to the history exactly once, in emission order, and sets the next
prompt to the fixed continuation token; the history only ever grows by a
suffix. -/
theorem gameLoop_success_appends_history {Msg : Type}
    (script : List (List (Step Msg))) (history : List Msg) (prompt : String) :
    gameLoop (script.map .success) history prompt =
      .exhausted
        (history ++ (script.map (fun steps => (steps.map Step.messages).flatten)).flatten)
        (if script.isEmpty then prompt else "Continue.") ∧
    (∀ (h2 : List Msg) (p2 : String),
      gameLoop (script.map .success) history prompt = .exhausted h2 p2 →
      ∃ suffix, h2 = history ++ suffix) := by
  refine ⟨gameLoop_success_run script history prompt, ?_⟩
  intro h2 p2 hg
  rw [gameLoop_success_run script history prompt] at hg
  exact ⟨_, (LoopResult.exhausted.inj hg).1.symm⟩

/-- C8 witness: two successful turns with steps `[m1, m2]` and `[m3]`,
starting from history `[h]`. -/
theorem gameLoop_success_appends_history_w :
    gameLoop (([[Step.mk ["m1"], Step.mk ["m2"]], [Step.mk ["m3"]]] :
        List (List (Step String))).map .success) ["h"] "Begin." =
      .exhausted ["h", "m1", "m2", "m3"] "Continue." ∧
    ∃ suffix, (["h", "m1", "m2", "m3"] : List String) = ["h"] ++ suffix := by
  have T := gameLoop_success_appends_history
    [[Step.mk ["m1"], Step.mk ["m2"]], [Step.mk ["m3"]]] ["h"] "Begin."
  exact ⟨T.1.trans (by decide),
    T.2 ["h", "m1", "m2", "m3"] "Continue." (T.1.trans (by decide))⟩

/-- C9: the dice string `2d6+3` parses as count 2, sides 6, modifier +3,
and with an entropy source drawing 3 then 4 (outcomes 4 and 5) the total is
exactly 12. -/
theorem dice_2d6p3_example :
    parseDice "2d6+3" = .ok 2 6 3 ∧
    rollDiceN ent45 "2d6+3" = .rolled [4, 5] 12 :=
  ⟨by decide, by decide⟩

/-- C10: with an empty options list no line is ever accepted (the check
requires an integer in `[1, 0]`), so every line re-prompts and the call
returns only at stream closure, with the player-left response. -/
theorem askPlayer_empty_options_left (lines : List String) :
    askPlayer [] lines = "The player has left the game." := by
  induction lines with
  | nil => rfl
  | cons line rest ih =>
    simp only [askPlayer]
    cases hc : atoiChars (trimChars line.data) with
    | none => exact ih
    | some c =>
      simp only [hc]
      by_cases h1 : c < 1
      · rw [if_pos h1]
        exact ih
      · have h2 : ((List.length ([] : List String) : Int)) < c := by
          simp only [List.length_nil, Nat.cast_zero]
          omega
        rw [if_neg h1, if_pos h2]
        exact ih

end DndAgent
